import Mathlib

/-!
# Verification of the pygame firework/particle engine

Shallow embedding of the particle system of this repository
(`src/v2/particles.py`, with `src/v1/main.py` as the near-identical early
variant).  Python floats are modelled as exact rationals (`ℚ`), Python ints
as `ℤ`, pygame surfaces as an abstract `Image` datatype recording how each
handle was produced, and the Python dict used as the sprite cache as an
insertion-ordered association list.  Randomness (in `Firework.explode`) is
modelled by an explicit oracle (`BurstSpec`) recording the drawn values,
with a validity predicate capturing the ranges of the `random` calls.
-/

set_option linter.unusedVariables false

/-- Python `int()` applied to a float: truncation toward zero. -/
def pyInt (q : ℚ) : ℤ := if q < 0 then ⌈q⌉ else ⌊q⌋

/-- Clamping `min(255, max(0, v))` as used for colour clamping. -/
def clamp255 (v : ℤ) : ℤ := min 255 (max 0 v)

/-- An RGB colour triple (each channel a Python int). -/
abbrev RGB : Type := ℤ × ℤ × ℤ

/-- An RGBA colour (used only for placeholder surfaces). -/
abbrev RGBA : Type := ℤ × ℤ × ℤ × ℤ

/-- Abstract pygame image handle.  Each constructor records the pygame
operation that produced the surface, so handle identity is equality of the
construction history. -/
inductive Image : Type where
  /-- `pygame.image.load(path).convert_alpha()` -/
  | loaded (path : String) : Image
  /-- `pygame.Surface((w, h), SRCALPHA)` filled with a solid colour. -/
  | surface (w h : ℤ) (fill : RGBA) : Image
  /-- `pygame.transform.scale(src, (w, h))` -/
  | scaled (src : Image) (w h : ℤ) : Image
  /-- `src.copy()` followed by `set_alpha(alpha)` (non-destructive copy). -/
  | withAlpha (src : Image) (alpha : ℤ) : Image
deriving DecidableEq, Repr

/-- The sprite cache's underlying dict: an insertion-ordered association
list from size to image handle. -/
abbrev Cache : Type := List (ℤ × Image)

/-- Python `d[k]` lookup returning `None`-style `Option` (`d.get(k)`):
first entry with the given key. -/
def dictGet : Cache → ℤ → Option Image
  | [], _ => none
  | (k, v) :: rest, s => if k = s then some v else dictGet rest s

/-- Python `d[k] = v`: replaces the value in place if the key exists,
otherwise appends the new entry (dict insertion order). -/
def dictInsert : Cache → ℤ → Image → Cache
  | [], k, v => [(k, v)]
  | (k', v') :: rest, k, v =>
      if k' = k then (k', v) :: rest else (k', v') :: dictInsert rest k v

/-- Python `min(k :: ks, key=lambda x: abs(x - t))`: left fold keeping the
first element of minimal absolute difference from `t`. -/
def argminAbs (t : ℤ) : ℤ → List ℤ → ℤ
  | k, [] => k
  | k, x :: xs => argminAbs t (if |x - t| < |k - t| then x else k) xs

/-- The canonical preloaded sizes. -/
def canonicalSizes : List ℤ := [20, 25, 30, 35, 40, 45]

/-- The pink fallback surface built for one canonical size. -/
def pinkPlaceholder (s : ℤ) : Image := Image.surface s s (255, 182, 203, 255)

namespace ParticleCache

/-- Embedding of `ParticleCache.preload_heart_images`.  The outcome of
`pygame.image.load` is passed in as an `Except` value (`.ok` = the decoded
image, `.error` = `pygame.error`/`FileNotFoundError`); both branches of the
Python `try` are total here, so no exception escapes.  Returns the updated
cache together with the list of diagnostic lines printed. -/
def preload_heart_images (c : Cache) (loadResult : Except String Image) :
    Cache × List String :=
  match loadResult with
  | .ok heart =>
      (canonicalSizes.foldl (fun acc s => dictInsert acc s (Image.scaled heart s s)) c, [])
  | .error _ =>
      (canonicalSizes.foldl (fun acc s => dictInsert acc s (pinkPlaceholder s)) c,
       ["Could not load heart image, using rectangles instead"])

/-- Embedding of `ParticleCache.get_cached_heart`.  Returns the image (or `None` when the
cache is empty) together with the possibly-grown cache. -/
def get_cached_heart (c : Cache) (size : ℤ) : Option Image × Cache :=
  match c.map Prod.fst with
  | [] => (none, c)
  | k :: ks =>
    let closest := argminAbs size k ks
    if closest = size then
      (dictGet c closest, c)
    else if |closest - size| ≤ 5 then
      (dictGet c closest, c)
    else if dictGet c size = none then
      let img := Image.scaled ((dictGet c closest).getD (Image.surface 0 0 (0, 0, 0, 0))) size size
      let c' := dictInsert c size img
      (dictGet c' size, c')
    else
      (dictGet c size, c)

end ParticleCache

/-- Rendering style of a particle: `PixelParticle` or `HeartParticle`
(the latter holding the cached sprite obtained at construction,
`None` when the cache was empty). -/
inductive ParticleKind : Type where
  | pixel : ParticleKind
  | heart (img : Option Image) : ParticleKind
deriving DecidableEq, Repr

/-- The `BaseParticle` state: shared physics fields plus the rendering variant.
Fields mirror `BaseParticle.__init__` (plus the subclass field
`heart_image` folded into `kind`). -/
structure BaseParticle : Type where
  x : ℚ
  y : ℚ
  v_x : ℚ
  v_y : ℚ
  color : RGB
  currentColor : RGB
  size : ℤ
  lifeTime : ℤ
  maxLife : ℤ
  gravity : ℚ
  kind : ParticleKind
deriving DecidableEq, Repr

namespace BaseParticle

/-- Embedding of `BaseParticle.__init__`, with the
rendering variant chosen by the caller. -/
def init (x y v_x v_y : ℚ) (color : RGB) (size lifeTime : ℤ)
    (kind : ParticleKind) : BaseParticle :=
  { x := x, y := y, v_x := v_x, v_y := v_y, color := color,
    currentColor := color, size := size, lifeTime := lifeTime,
    maxLife := lifeTime, gravity := 1/10, kind := kind }

/-- Embedding of `BaseParticle.update`: one physics step; returns the new state and the
alive flag `life_time > 0`. -/
def update (p : BaseParticle) : BaseParticle × Bool :=
  let x := p.x + p.v_x
  let y := p.y + p.v_y
  let v_y := p.v_y + p.gravity
  let v_x := p.v_x * (99/100)
  let lifeTime := p.lifeTime - 1
  let alpha : ℚ := (lifeTime : ℚ) / (p.maxLife : ℚ)
  let currentColor : RGB :=
    (pyInt ((p.color.1 : ℚ) * alpha),
     pyInt ((p.color.2.1 : ℚ) * alpha),
     pyInt ((p.color.2.2 : ℚ) * alpha))
  ({ p with x := x, y := y, v_x := v_x, v_y := v_y,
            lifeTime := lifeTime, currentColor := currentColor },
   decide (lifeTime > 0))

/-- Running `n` successive `update` calls (keeping the state, discarding the alive
flags, as the owning firework does while the particle stays alive). -/
def iter (p : BaseParticle) : ℕ → BaseParticle
  | 0 => p
  | n + 1 => ((p.iter n).update).1

end BaseParticle

/-- A single drawing command issued against the screen surface. -/
inductive DrawCmd : Type where
  | rect (x y w h : ℤ) (color : RGB) : DrawCmd
  | circle (x y radius : ℤ) (color : RGB) : DrawCmd
  | blit (img : Image) (x y : ℤ) : DrawCmd
deriving DecidableEq, Repr

/-- Embedding of `PixelParticle.draw`: a filled square at the truncated position in the
faded colour, only while alive. -/
def PixelParticle.draw (p : BaseParticle) : List DrawCmd :=
  if p.lifeTime > 0 then
    [DrawCmd.rect (pyInt p.x) (pyInt p.y) p.size p.size p.currentColor]
  else []

namespace HeartParticle

/-- Embedding of `HeartParticle.__init__`: builds the base particle and stores the cache
lookup result; returns the particle together with the possibly-grown
cache. -/
def init (x y v_x v_y : ℚ) (color : RGB) (size lifeTime : ℤ)
    (particle_cache : Cache) : BaseParticle × Cache :=
  let r := ParticleCache.get_cached_heart particle_cache size
  (BaseParticle.init x y v_x v_y color size lifeTime (ParticleKind.heart r.1), r.2)

/-- Embedding of `HeartParticle.draw`: blits the cached sprite (a faded throwaway copy
when alpha < 255), only while alive and only when a sprite is present. -/
def draw (p : BaseParticle) : List DrawCmd :=
  match p.kind with
  | ParticleKind.heart (some img) =>
      if p.lifeTime > 0 then
        let alpha := pyInt (255 * ((p.lifeTime : ℚ) / (p.maxLife : ℚ)))
        if alpha < 255 then
          [DrawCmd.blit (Image.withAlpha img alpha) (pyInt p.x) (pyInt p.y)]
        else
          [DrawCmd.blit img (pyInt p.x) (pyInt p.y)]
      else []
  | _ => []

end HeartParticle

/-- The `particle_type` tag of a firework (`"heart"` / `"pixel"`). -/
inductive PType : Type where
  | heart : PType
  | pixel : PType
deriving DecidableEq, Repr

/-- The random draws consumed for one explosion particle:
`math.cos(angle) * speed` / `math.sin(angle) * speed` are recorded directly
as the Cartesian velocity, plus the drawn size, lifetime and the three
colour-channel jitters. -/
structure ParticleDraw : Type where
  v_x : ℚ
  v_y : ℚ
  size : ℤ
  lifeTime : ℤ
  dr : ℤ
  dg : ℤ
  db : ℤ

/-- The random draws consumed by one call to `Firework.explode`:
`particle_count = random.randint(5, 15)` and the per-particle draws. -/
structure BurstSpec : Type where
  count : ℕ
  draws : ℕ → ParticleDraw

/-- Range constraints of the `random` calls in `Firework.explode` for one
particle, by particle type. -/
def ParticleDraw.valid (t : PType) (d : ParticleDraw) : Prop :=
  (match t with
   | PType.heart => 25 ≤ d.size ∧ d.size ≤ 40 ∧ 30 ≤ d.lifeTime ∧ d.lifeTime ≤ 60
   | PType.pixel => 2 ≤ d.size ∧ d.size ≤ 6 ∧ 20 ≤ d.lifeTime ∧ d.lifeTime ≤ 40)
  ∧ |d.dr| ≤ 30 ∧ |d.dg| ≤ 30 ∧ |d.db| ≤ 30

/-- Range constraints of all `random` calls in one `Firework.explode`. -/
def BurstSpec.valid (t : PType) (o : BurstSpec) : Prop :=
  5 ≤ o.count ∧ o.count ≤ 15 ∧ ∀ i < o.count, (o.draws i).valid t

instance (t : PType) (d : ParticleDraw) : Decidable (d.valid t) := by
  unfold ParticleDraw.valid; cases t <;> exact inferInstance

instance (t : PType) (o : BurstSpec) : Decidable (o.valid t) := by
  unfold BurstSpec.valid; exact inferInstance

/-- The `Firework` state. -/
structure Firework : Type where
  x : ℚ
  y : ℚ
  target_x : ℚ
  target_y : ℚ
  color : RGB
  particle_type : PType
  particle_cache : Cache
  v_x : ℚ
  v_y : ℚ
  exploded : Bool
  particles : List BaseParticle

namespace Firework

/-- Embedding of `Firework.__init__`: velocity is 2% of the vector to the target,
computed once. -/
def init (x y target_x target_y : ℚ) (color : RGB) (particle_type : PType)
    (particle_cache : Cache) : Firework :=
  { x := x, y := y, target_x := target_x, target_y := target_y,
    color := color, particle_type := particle_type,
    particle_cache := particle_cache,
    v_x := (target_x - x) * (2/100), v_y := (target_y - y) * (2/100),
    exploded := false, particles := [] }

/-- One explosion particle: colour jitter clamped to [0,255], then the
type-appropriate particle constructor (hearts also consult and possibly
grow the cache). -/
def mkExplosionParticle (fw : Firework) (d : ParticleDraw) (c : Cache) :
    BaseParticle × Cache :=
  let color_variant : RGB :=
    (clamp255 (fw.color.1 + d.dr), clamp255 (fw.color.2.1 + d.dg),
     clamp255 (fw.color.2.2 + d.db))
  match fw.particle_type with
  | PType.heart => HeartParticle.init fw.x fw.y d.v_x d.v_y color_variant d.size d.lifeTime c
  | PType.pixel =>
      (BaseParticle.init fw.x fw.y d.v_x d.v_y color_variant d.size d.lifeTime ParticleKind.pixel, c)

/-- The particle-creation loop of `Firework.explode`, threading the shared
cache through the `HeartParticle` constructions. -/
def spawnParticles (fw : Firework) (o : BurstSpec) : List BaseParticle × Cache :=
  (List.range o.count).foldl
    (fun acc i =>
      let r := fw.mkExplosionParticle (o.draws i) acc.2
      (acc.1 ++ [r.1], r.2))
    ([], fw.particle_cache)

/-- Embedding of `Firework.explode`: sets the flag and appends the burst particles. -/
def explode (fw : Firework) (o : BurstSpec) : Firework :=
  let r := fw.spawnParticles o
  { fw with exploded := true, particles := fw.particles ++ r.1,
            particle_cache := r.2 }

/-- Embedding of `self.particles = [p for p in self.particles if p.update()]`: every
particle is stepped, survivors are kept in order. -/
def updateParticles (ps : List BaseParticle) : List BaseParticle :=
  ps.filterMap (fun p =>
    let r := p.update
    if r.2 = true then some r.1 else none)

/-- Embedding of `Firework.update`: launch phase moves and checks arrival (both axis
deltas < 10), explosion phase filters the particles through their updates;
returns the new state and `len(particles) > 0 or not exploded`. -/
def update (fw : Firework) (o : BurstSpec) : Firework × Bool :=
  let fw' :=
    if fw.exploded = false then
      let x := fw.x + fw.v_x
      let y := fw.y + fw.v_y
      let moved := { fw with x := x, y := y }
      if |x - fw.target_x| < 10 ∧ |y - fw.target_y| < 10 then
        moved.explode o
      else moved
    else
      { fw with particles := updateParticles fw.particles }
  (fw', decide (fw'.particles.length > 0) || !fw'.exploded)

/-- Running `n` successive `update` calls, consuming the oracle stream `os`. -/
def iter (fw : Firework) (os : ℕ → BurstSpec) : ℕ → Firework
  | 0 => fw
  | n + 1 => ((fw.iter os n).update (os n)).1

end Firework

/-! ## Concrete fixtures used by witnesses and counterexamples -/

/-- A shared concrete burst oracle used by witnesses: five pixel-style
particles with velocity `(0, 0)`, size 2, lifetime 20, no colour jitter. -/
def burst0 : BurstSpec := ⟨5, fun _ => ⟨0, 0, 2, 20, 0, 0, 0⟩⟩

/-- A shared concrete terminal firework used by witnesses. -/
def fwTerminal : Firework :=
  { x := 0, y := 0, target_x := 0, target_y := 0, color := (255, 0, 0),
    particle_type := PType.pixel, particle_cache := [], v_x := 0, v_y := 0,
    exploded := true, particles := [] }

/-- A shared concrete live particle used by witnesses. -/
def pWit : BaseParticle :=
  BaseParticle.init 0 0 1 (-2) (200, 100, 50) 3 10 ParticleKind.pixel

/-- A shared concrete unexploded firework used by witnesses. -/
def fwLaunch : Firework := Firework.init 0 0 0 0 (255, 0, 0) PType.pixel []

/-- The per-tick distance of the (400,600)→(400,300) pixel firework to its
target height. -/
def distToTarget (n : ℕ) : ℚ :=
  |((Firework.init 400 600 400 300 (255, 100, 100) PType.pixel []).iter
      (fun _ => burst0) n).y - 300|





/-! ## Helper lemmas -/

theorem pyInt_eq_floor {q : ℚ} (h : 0 ≤ q) : pyInt q = ⌊q⌋ := by
  unfold pyInt; rw [if_neg (not_lt.mpr h)]

theorem pyInt_nonneg {q : ℚ} (h : 0 ≤ q) : 0 ≤ pyInt q := by
  rw [pyInt_eq_floor h]; exact Int.floor_nonneg.mpr h

theorem pyInt_le_255 {q : ℚ} (h0 : 0 ≤ q) (h : q ≤ 255) : pyInt q ≤ 255 := by
  rw [pyInt_eq_floor h0]
  calc ⌊q⌋ ≤ ⌊(255 : ℚ)⌋ := Int.floor_le_floor h
    _ = 255 := by norm_num

/-- One faded channel `int(c * (l / m))` stays in `[0, 255]` whenever the
base channel does and `0 ≤ l ≤ m`. -/
theorem fadeChannel_bounds {c l m : ℤ} (hc0 : 0 ≤ c) (hc1 : c ≤ 255)
    (hl0 : 0 ≤ l) (hlm : l ≤ m) (hm : 1 ≤ m) :
    0 ≤ pyInt ((c : ℚ) * ((l : ℚ) / (m : ℚ))) ∧
      pyInt ((c : ℚ) * ((l : ℚ) / (m : ℚ))) ≤ 255 := by
  have hmpos : (0 : ℚ) < (m : ℚ) := by exact_mod_cast hm
  have hq0 : (0 : ℚ) ≤ (c : ℚ) * ((l : ℚ) / (m : ℚ)) :=
    mul_nonneg (by exact_mod_cast hc0)
      (div_nonneg (by exact_mod_cast hl0) (le_of_lt hmpos))
  have hr : ((l : ℚ) / (m : ℚ)) ≤ 1 := (div_le_one hmpos).mpr (by exact_mod_cast hlm)
  have hq1 : (c : ℚ) * ((l : ℚ) / (m : ℚ)) ≤ 255 :=
    le_trans (mul_le_of_le_one_right (by exact_mod_cast hc0) hr) (by exact_mod_cast hc1)
  exact ⟨pyInt_nonneg hq0, pyInt_le_255 hq0 hq1⟩


/-- The result of Python `min(k :: ks, key=...)` attains the minimum over
every element of the list. -/
theorem argminAbs_le (t : ℤ) :
    ∀ (xs : List ℤ) (k x : ℤ), x = k ∨ x ∈ xs → |argminAbs t k xs - t| ≤ |x - t|
  | [], k, x, h => by
      rcases h with h | h
      · subst h; exact le_refl _
      · cases h
  | a :: as, k, x, h => by
      have hk' : |(if |a - t| < |k - t| then a else k) - t| ≤ |k - t| := by
        split
        · exact le_of_lt (by assumption)
        · exact le_refl _
      have ha' : |(if |a - t| < |k - t| then a else k) - t| ≤ |a - t| := by
        split
        · exact le_refl _
        · exact le_of_not_lt (by assumption)
      have step : ∀ z, z = (if |a - t| < |k - t| then a else k) ∨ z ∈ as →
          |argminAbs t k (a :: as) - t| ≤ |z - t| := by
        intro z hz
        show |argminAbs t (if |a - t| < |k - t| then a else k) as - t| ≤ |z - t|
        exact argminAbs_le t as _ z hz
      rcases h with h | h
      · subst h
        exact le_trans (step _ (Or.inl rfl)) hk'
      · rcases List.mem_cons.mp h with h | h
        · subst h
          exact le_trans (step _ (Or.inl rfl)) ha'
        · exact step x (Or.inr h)

/-- A key is absent from the dict exactly when `dictGet` returns `none`. -/
theorem dictGet_eq_none_iff (c : Cache) (s : ℤ) :
    dictGet c s = none ↔ s ∉ c.map Prod.fst := by
  induction c with
  | nil => simp [dictGet]
  | cons e rest ih =>
      obtain ⟨k, v⟩ := e
      by_cases h : k = s
      · subst h; simp [dictGet]
      · simp [dictGet, h, ih, Ne.symm h]

/-- Assignment to an absent key appends the entry (dict insertion order). -/
theorem dictInsert_eq_append (c : Cache) (s : ℤ) (v : Image)
    (h : dictGet c s = none) : dictInsert c s v = c ++ [(s, v)] := by
  induction c with
  | nil => rfl
  | cons e rest ih =>
      obtain ⟨k, w⟩ := e
      simp only [dictGet] at h
      by_cases hk : k = s
      · simp [hk] at h
      · simp only [dictInsert, hk, if_false, List.cons_append, List.cons.injEq, true_and]
        exact ih (by simpa [hk] using h)

/-- Looking up a key just appended to a dict that did not contain it. -/
theorem dictGet_append_self (c : Cache) (s : ℤ) (v : Image)
    (h : dictGet c s = none) : dictGet (c ++ [(s, v)]) s = some v := by
  induction c with
  | nil => simp [dictGet]
  | cons e rest ih =>
      obtain ⟨k, w⟩ := e
      simp only [dictGet] at h
      by_cases hk : k = s
      · simp [hk] at h
      · simp only [List.cons_append, dictGet, hk, if_false]
        exact ih (by simpa [hk] using h)

/-- Calling `get_cached_heart` on a cache whose key set contains the requested size
hits the exact-match branch: it returns the stored entry and leaves the
cache unchanged. -/
theorem get_cached_heart_exact (c : Cache) (s : ℤ)
    (h : s ∈ c.map Prod.fst) :
    ParticleCache.get_cached_heart c s = (dictGet c s, c) := by
  unfold ParticleCache.get_cached_heart
  cases hm : c.map Prod.fst with
  | nil => rw [hm] at h; cases h
  | cons k ks =>
      rw [hm] at h
      have hmem : s = k ∨ s ∈ ks := List.mem_cons.mp h
      have hle : |argminAbs s k ks - s| ≤ |s - s| := argminAbs_le s ks k s hmem
      have hzero : |argminAbs s k ks - s| = 0 :=
        le_antisymm (by simpa using hle) (abs_nonneg _)
      have hclosest : argminAbs s k ks = s := by
        have := abs_eq_zero.mp hzero
        linarith [this]
      simp [hclosest]

/-- Every call to `get_cached_heart` either leaves the cache untouched, or
appends exactly one entry under the requested size and returns it. -/
theorem get_cached_heart_spec (c : Cache) (s : ℤ) :
    (ParticleCache.get_cached_heart c s).2 = c ∨
      (dictGet c s = none ∧ ∃ img,
        ParticleCache.get_cached_heart c s = (some img, c ++ [(s, img)])) := by
  unfold ParticleCache.get_cached_heart
  cases hm : c.map Prod.fst with
  | nil => exact Or.inl rfl
  | cons k ks =>
      by_cases h1 : argminAbs s k ks = s
      · exact Or.inl (by simp [h1])
      · by_cases h2 : |argminAbs s k ks - s| ≤ 5
        · exact Or.inl (by simp only [if_neg h1, if_pos h2])
        · have h3 : dictGet c s = none := by
            rw [dictGet_eq_none_iff]
            intro hmem
            rw [hm] at hmem
            have hle : |argminAbs s k ks - s| ≤ |s - s| :=
              argminAbs_le s ks k s (List.mem_cons.mp hmem)
            exact h2 (le_trans hle (by simp))
          refine Or.inr ⟨h3, Image.scaled ((dictGet c (argminAbs s k ks)).getD
              (Image.surface 0 0 (0, 0, 0, 0))) s s, ?_⟩
          have happ := dictInsert_eq_append c s
            (Image.scaled ((dictGet c (argminAbs s k ks)).getD
              (Image.surface 0 0 (0, 0, 0, 0))) s s) h3
          simp only [if_neg h1, if_neg h2, if_pos h3, happ]
          rw [dictGet_append_self c s _ h3]

/-! ## Claims -/

/-- C5: preloading with a path whose image cannot be loaded never lets the
exception escape (the embedding of `preload_heart_images` handles the
`.error` case totally): the cache ends up with exactly the six canonical
size keys 20, 25, 30, 35, 40, 45, each mapped to the synthesized pink
placeholder surface, and the diagnostic line is emitted. -/
theorem C5_preload_invalid_path (e : String) :
    ParticleCache.preload_heart_images [] (Except.error e) =
      ([(20, pinkPlaceholder 20), (25, pinkPlaceholder 25), (30, pinkPlaceholder 30),
        (35, pinkPlaceholder 35), (40, pinkPlaceholder 40), (45, pinkPlaceholder 45)],
       ["Could not load heart image, using rectangles instead"]) := rfl

/-- Witness for C5 at a concrete path error. -/
theorem C5_preload_invalid_path_witness :
    ParticleCache.preload_heart_images [] (Except.error "No such file") =
      ([(20, pinkPlaceholder 20), (25, pinkPlaceholder 25), (30, pinkPlaceholder 30),
        (35, pinkPlaceholder 35), (40, pinkPlaceholder 40), (45, pinkPlaceholder 45)],
       ["Could not load heart image, using rectangles instead"]) :=
  C5_preload_invalid_path "No such file"

/-- C9: the terminal state is absorbing: once a firework is exploded with
no particles left, every further `update` returns `false` and leaves the
whole state (position, velocity, colour, flag, particles, cache) exactly
unchanged. -/
theorem C9_terminal_state_absorbing (fw : Firework) (o : BurstSpec)
    (he : fw.exploded = true) (hp : fw.particles = []) :
    fw.update o = (fw, false) := by
  refine Prod.ext ?_ ?_
  · show (if fw.exploded = false then _ else _ : Firework) = fw
    rw [he]
    simp only [Bool.true_eq_false, if_false, hp, Firework.updateParticles,
      List.filterMap_nil]
    rw [← hp, ← he]
  · show (decide _ || !(if fw.exploded = false then _ else _ : Firework).exploded) = false
    rw [he]
    simp [hp, Firework.updateParticles]

/-- Witness for C9 at a concrete terminal firework. -/
theorem C9_terminal_state_absorbing_witness :
    fwTerminal.update burst0 = (fwTerminal, false) :=
  C9_terminal_state_absorbing fwTerminal burst0 rfl rfl

/-- C3: `get_cached_heart` is idempotent: after one `get(s)`, a second
`get(s)` on the resulting cache returns the identical image handle and the
identical cache (no further synthesis or insertion; at most one entry is
ever created for a given size).  Holds for every cache state, in
particular for any preloaded one. -/
theorem C3_get_idempotent (c : Cache) (s : ℤ) :
    ParticleCache.get_cached_heart (ParticleCache.get_cached_heart c s).2 s =
      ParticleCache.get_cached_heart c s := by
  rcases get_cached_heart_spec c s with h | ⟨h0, img, hpair⟩
  · rw [h]
  · rw [hpair]
    have hmem : s ∈ (c ++ [(s, img)]).map Prod.fst := by simp
    rw [get_cached_heart_exact _ _ hmem, dictGet_append_self c s img h0]

/-- Calling `get_cached_heart` when the closest key is within 5 units: returns the
closest entry and leaves the cache untouched. -/
theorem get_cached_heart_near (c : Cache) (s k0 : ℤ) (ks : List ℤ)
    (hm : c.map Prod.fst = k0 :: ks) (hle : |argminAbs s k0 ks - s| ≤ 5) :
    ParticleCache.get_cached_heart c s = (dictGet c (argminAbs s k0 ks), c) := by
  unfold ParticleCache.get_cached_heart
  rw [hm]
  by_cases hc : argminAbs s k0 ks = s
  · simp [hc]
  · simp [hc, hle]

/-- C4: on a freshly preloaded cache (whatever six images preloading
produced), a request within 5 units of some canonical size returns the
entry of the closest canonical key directly and leaves the cache — in
particular its key set — unchanged. -/
theorem C4_near_hit_no_growth (i20 i25 i30 i35 i40 i45 : Image) (s : ℤ)
    (h : ∃ k ∈ canonicalSizes, |s - k| ≤ 5) :
    ParticleCache.get_cached_heart
        [(20, i20), (25, i25), (30, i30), (35, i35), (40, i40), (45, i45)] s =
      (dictGet [(20, i20), (25, i25), (30, i30), (35, i35), (40, i40), (45, i45)]
         (argminAbs s 20 [25, 30, 35, 40, 45]),
       [(20, i20), (25, i25), (30, i30), (35, i35), (40, i40), (45, i45)]) := by
  obtain ⟨k, hk, hk5⟩ := h
  have hle : |argminAbs s 20 [25, 30, 35, 40, 45] - s| ≤ 5 := by
    have hmem : k = 20 ∨ k ∈ [25, 30, 35, 40, 45] := by
      simp only [canonicalSizes] at hk
      simpa using hk
    calc |argminAbs s 20 [25, 30, 35, 40, 45] - s| ≤ |k - s| :=
          argminAbs_le s [25, 30, 35, 40, 45] 20 k hmem
      _ = |s - k| := abs_sub_comm _ _
      _ ≤ 5 := hk5
  exact get_cached_heart_near _ s 20 [25, 30, 35, 40, 45] (by simp) hle

/-- Witness for C4: size 22 is within 5 of canonical size 20; the call
returns the size-20 entry and the cache is unchanged. -/
theorem C4_near_hit_no_growth_witness :
    ParticleCache.get_cached_heart
        [(20, pinkPlaceholder 20), (25, pinkPlaceholder 25), (30, pinkPlaceholder 30),
         (35, pinkPlaceholder 35), (40, pinkPlaceholder 40), (45, pinkPlaceholder 45)] 22 =
      (dictGet [(20, pinkPlaceholder 20), (25, pinkPlaceholder 25), (30, pinkPlaceholder 30),
         (35, pinkPlaceholder 35), (40, pinkPlaceholder 40), (45, pinkPlaceholder 45)]
         (argminAbs 22 20 [25, 30, 35, 40, 45]),
       [(20, pinkPlaceholder 20), (25, pinkPlaceholder 25), (30, pinkPlaceholder 30),
        (35, pinkPlaceholder 35), (40, pinkPlaceholder 40), (45, pinkPlaceholder 45)]) :=
  C4_near_hit_no_growth (pinkPlaceholder 20) (pinkPlaceholder 25) (pinkPlaceholder 30)
    (pinkPlaceholder 35) (pinkPlaceholder 40) (pinkPlaceholder 45) 22
    ⟨20, by decide, by decide⟩

/-- Fields not touched by the physics step, and the lifetime countdown,
across `n` updates. -/
theorem BaseParticle.iter_fields (p : BaseParticle) (n : ℕ) :
    (p.iter n).color = p.color ∧ (p.iter n).maxLife = p.maxLife ∧
    (p.iter n).gravity = p.gravity ∧ (p.iter n).kind = p.kind ∧
    (p.iter n).size = p.size ∧ (p.iter n).lifeTime = p.lifeTime - n := by
  induction n with
  | zero => simp [BaseParticle.iter]
  | succ m ih =>
      obtain ⟨hc, hm, hg, hk, hs, hl⟩ := ih
      refine ⟨hc, hm, hg, hk, hs, ?_⟩
      show ((p.iter m).update).1.lifeTime = p.lifeTime - (m + 1 : ℕ)
      have : ((p.iter m).update).1.lifeTime = (p.iter m).lifeTime - 1 := rfl
      rw [this, hl]
      push_cast
      ring

/-- The faded colour after the `n`-th update (`n ≥ 1`), in closed form. -/
theorem BaseParticle.iter_currentColor (p : BaseParticle) (m : ℕ) :
    (p.iter (m + 1)).currentColor =
      (pyInt ((p.color.1 : ℚ) * (((p.lifeTime - (m + 1 : ℕ) : ℤ) : ℚ) / (p.maxLife : ℚ))),
       pyInt ((p.color.2.1 : ℚ) * (((p.lifeTime - (m + 1 : ℕ) : ℤ) : ℚ) / (p.maxLife : ℚ))),
       pyInt ((p.color.2.2 : ℚ) * (((p.lifeTime - (m + 1 : ℕ) : ℤ) : ℚ) / (p.maxLife : ℚ)))) := by
  obtain ⟨hc, hmax, hg, hk, hs, hl⟩ := BaseParticle.iter_fields p m
  show ((p.iter m).update).1.currentColor = _
  have : ((p.iter m).update).1.currentColor =
      (pyInt (((p.iter m).color.1 : ℚ) * ((((p.iter m).lifeTime - 1 : ℤ) : ℚ) / ((p.iter m).maxLife : ℚ))),
       pyInt (((p.iter m).color.2.1 : ℚ) * ((((p.iter m).lifeTime - 1 : ℤ) : ℚ) / ((p.iter m).maxLife : ℚ))),
       pyInt (((p.iter m).color.2.2 : ℚ) * ((((p.iter m).lifeTime - 1 : ℤ) : ℚ) / ((p.iter m).maxLife : ℚ)))) := rfl
  rw [this, hc, hmax, hl]
  have harg : (p.lifeTime - (m : ℕ) - 1 : ℤ) = p.lifeTime - (m + 1 : ℕ) := by
    push_cast; ring
  rw [harg]

/-- C2: one `update` on a live particle (`remaining lifetime ≥ 1`, base
colour channels in [0,255], lifetime within its initial maximum, gravity
the constructor constant 0.1): position gains the velocity, the vertical
velocity gains exactly 0.1 (no damping), the horizontal velocity is scaled
by exactly 0.99 (no gravity), the lifetime drops by exactly 1, the
displayed colour is `base * (remaining/max_life)` per channel truncated to
an integer lying in [0,255], the base colour and `max_life` are unchanged,
and the call returns `true` iff the decremented lifetime is > 0. -/
theorem C2_particle_step (p : BaseParticle)
    (hgrav : p.gravity = 1/10)
    (hl : 1 ≤ p.lifeTime) (hlm : p.lifeTime ≤ p.maxLife)
    (hr0 : 0 ≤ p.color.1) (hr1 : p.color.1 ≤ 255)
    (hg0 : 0 ≤ p.color.2.1) (hg1 : p.color.2.1 ≤ 255)
    (hb0 : 0 ≤ p.color.2.2) (hb1 : p.color.2.2 ≤ 255) :
    (p.update.1.x = p.x + p.v_x ∧ p.update.1.y = p.y + p.v_y) ∧
    (p.update.1.v_y = p.v_y + 1/10 ∧ p.update.1.v_x = p.v_x * (99/100)) ∧
    p.update.1.lifeTime = p.lifeTime - 1 ∧
    (p.update.1.color = p.color ∧ p.update.1.maxLife = p.maxLife) ∧
    p.update.1.currentColor =
      (pyInt ((p.color.1 : ℚ) * (((p.lifeTime - 1 : ℤ) : ℚ) / (p.maxLife : ℚ))),
       pyInt ((p.color.2.1 : ℚ) * (((p.lifeTime - 1 : ℤ) : ℚ) / (p.maxLife : ℚ))),
       pyInt ((p.color.2.2 : ℚ) * (((p.lifeTime - 1 : ℤ) : ℚ) / (p.maxLife : ℚ)))) ∧
    (0 ≤ p.update.1.currentColor.1 ∧ p.update.1.currentColor.1 ≤ 255) ∧
    (0 ≤ p.update.1.currentColor.2.1 ∧ p.update.1.currentColor.2.1 ≤ 255) ∧
    (0 ≤ p.update.1.currentColor.2.2 ∧ p.update.1.currentColor.2.2 ≤ 255) ∧
    (p.update.2 = true ↔ 0 < p.lifeTime - 1) := by
  have hmax1 : 1 ≤ p.maxLife := le_trans hl hlm
  have hl0 : 0 ≤ p.lifeTime - 1 := by linarith
  have hlm1 : p.lifeTime - 1 ≤ p.maxLife := by linarith
  have hcc : p.update.1.currentColor =
      (pyInt ((p.color.1 : ℚ) * (((p.lifeTime - 1 : ℤ) : ℚ) / (p.maxLife : ℚ))),
       pyInt ((p.color.2.1 : ℚ) * (((p.lifeTime - 1 : ℤ) : ℚ) / (p.maxLife : ℚ))),
       pyInt ((p.color.2.2 : ℚ) * (((p.lifeTime - 1 : ℤ) : ℚ) / (p.maxLife : ℚ)))) := rfl
  refine ⟨⟨rfl, rfl⟩, ⟨by rw [show p.update.1.v_y = p.v_y + p.gravity from rfl, hgrav], rfl⟩,
    rfl, ⟨rfl, rfl⟩, hcc, ?_, ?_, ?_, ?_⟩
  · rw [hcc]; exact fadeChannel_bounds hr0 hr1 hl0 hlm1 hmax1
  · rw [hcc]; exact fadeChannel_bounds hg0 hg1 hl0 hlm1 hmax1
  · rw [hcc]; exact fadeChannel_bounds hb0 hb1 hl0 hlm1 hmax1
  · show decide (p.lifeTime - 1 > 0) = true ↔ 0 < p.lifeTime - 1
    exact decide_eq_true_iff

/-- Witness for C2 at a concrete live particle. -/
theorem C2_particle_step_witness :
    (pWit.gravity = 1/10 ∧ 1 ≤ pWit.lifeTime ∧ pWit.lifeTime ≤ pWit.maxLife ∧
     0 ≤ pWit.color.1 ∧ pWit.color.1 ≤ 255) ∧
    pWit.update.1.lifeTime = pWit.lifeTime - 1 ∧
    (pWit.update.2 = true ↔ 0 < pWit.lifeTime - 1) := by
  have h := C2_particle_step pWit rfl (by decide) (by decide) (by decide)
    (by decide) (by decide) (by decide) (by decide) (by decide)
  exact ⟨⟨rfl, by decide, by decide, by decide, by decide⟩,
    h.2.2.1, h.2.2.2.2.2.2.2.2⟩

/-- C7: for a particle constructed with channels in [0,255] and a positive
lifetime, at every point of its lifetime (each `n ≤ life`, i.e. from
construction up to and including the update that reports it dead) the
displayed colour's channels lie in [0,255]; and whenever the remaining
lifetime equals `max_life` the displayed colour is exactly the base
colour. -/
theorem C7_fade_color_invariant (x y v_x v_y : ℚ) (c1 c2 c3 : ℤ)
    (size life : ℤ) (kind : ParticleKind) (n : ℕ)
    (hr0 : 0 ≤ c1) (hr1 : c1 ≤ 255) (hg0 : 0 ≤ c2) (hg1 : c2 ≤ 255)
    (hb0 : 0 ≤ c3) (hb1 : c3 ≤ 255) (hlife : 1 ≤ life) (hn : (n : ℤ) ≤ life) :
    (0 ≤ ((BaseParticle.init x y v_x v_y (c1, c2, c3) size life kind).iter n).currentColor.1 ∧
      ((BaseParticle.init x y v_x v_y (c1, c2, c3) size life kind).iter n).currentColor.1 ≤ 255) ∧
    (0 ≤ ((BaseParticle.init x y v_x v_y (c1, c2, c3) size life kind).iter n).currentColor.2.1 ∧
      ((BaseParticle.init x y v_x v_y (c1, c2, c3) size life kind).iter n).currentColor.2.1 ≤ 255) ∧
    (0 ≤ ((BaseParticle.init x y v_x v_y (c1, c2, c3) size life kind).iter n).currentColor.2.2 ∧
      ((BaseParticle.init x y v_x v_y (c1, c2, c3) size life kind).iter n).currentColor.2.2 ≤ 255) ∧
    (((BaseParticle.init x y v_x v_y (c1, c2, c3) size life kind).iter n).lifeTime =
        ((BaseParticle.init x y v_x v_y (c1, c2, c3) size life kind).iter n).maxLife →
      ((BaseParticle.init x y v_x v_y (c1, c2, c3) size life kind).iter n).currentColor =
        (c1, c2, c3)) := by
  set p0 := BaseParticle.init x y v_x v_y (c1, c2, c3) size life kind with hp0
  obtain ⟨hc, hmax, hg, hk, hs, hl⟩ := BaseParticle.iter_fields p0 n
  have hcol : p0.color = (c1, c2, c3) := rfl
  have hmaxv : p0.maxLife = life := rfl
  have hlv : p0.lifeTime = life := rfl
  cases n with
  | zero =>
      have hcc : (p0.iter 0).currentColor = (c1, c2, c3) := rfl
      rw [hcc]
      exact ⟨⟨hr0, hr1⟩, ⟨hg0, hg1⟩, ⟨hb0, hb1⟩, fun _ => rfl⟩
  | succ m =>
      have hcc := BaseParticle.iter_currentColor p0 m
      rw [hcol, hmaxv, hlv] at hcc
      have hl0 : 0 ≤ life - ((m + 1 : ℕ) : ℤ) := by
        have : ((m + 1 : ℕ) : ℤ) ≤ life := hn
        linarith
      have hlm : life - ((m + 1 : ℕ) : ℤ) ≤ life := by
        have : (0 : ℤ) ≤ ((m + 1 : ℕ) : ℤ) := Int.natCast_nonneg _
        linarith
      rw [hcc]
      refine ⟨fadeChannel_bounds hr0 hr1 hl0 hlm hlife,
        fadeChannel_bounds hg0 hg1 hl0 hlm hlife,
        fadeChannel_bounds hb0 hb1 hl0 hlm hlife, ?_⟩
      intro heq
      rw [hl, hmax, hlv, hmaxv] at heq
      have : ((m + 1 : ℕ) : ℤ) = 0 := by linarith
      have hpos : (0 : ℤ) < ((m + 1 : ℕ) : ℤ) := by positivity
      rw [this] at hpos
      exact absurd hpos (lt_irrefl 0)

/-- Witness for C7 in the middle of a concrete particle's life. -/
theorem C7_fade_color_invariant_witness :
    (0 ≤ ((BaseParticle.init 0 0 1 (-2) (200, 100, 50) 3 10 ParticleKind.pixel).iter 4).currentColor.1 ∧
      ((BaseParticle.init 0 0 1 (-2) (200, 100, 50) 3 10 ParticleKind.pixel).iter 4).currentColor.1 ≤ 255) ∧
    (0 ≤ ((BaseParticle.init 0 0 1 (-2) (200, 100, 50) 3 10 ParticleKind.pixel).iter 4).currentColor.2.1 ∧
      ((BaseParticle.init 0 0 1 (-2) (200, 100, 50) 3 10 ParticleKind.pixel).iter 4).currentColor.2.1 ≤ 255) ∧
    (0 ≤ ((BaseParticle.init 0 0 1 (-2) (200, 100, 50) 3 10 ParticleKind.pixel).iter 4).currentColor.2.2 ∧
      ((BaseParticle.init 0 0 1 (-2) (200, 100, 50) 3 10 ParticleKind.pixel).iter 4).currentColor.2.2 ≤ 255) ∧
    (((BaseParticle.init 0 0 1 (-2) (200, 100, 50) 3 10 ParticleKind.pixel).iter 4).lifeTime =
        ((BaseParticle.init 0 0 1 (-2) (200, 100, 50) 3 10 ParticleKind.pixel).iter 4).maxLife →
      ((BaseParticle.init 0 0 1 (-2) (200, 100, 50) 3 10 ParticleKind.pixel).iter 4).currentColor =
        (200, 100, 50)) :=
  C7_fade_color_invariant 0 0 1 (-2) 200 100 50 3 10 ParticleKind.pixel 4
    (by decide) (by decide) (by decide) (by decide) (by decide) (by decide)
    (by decide) (by decide)

/-- One physics step commutes with overriding the rendering variant:
`update` never reads or writes `kind`. -/
theorem BaseParticle.update_setKind (p : BaseParticle) (k : ParticleKind) :
    ({ p with kind := k } : BaseParticle).update =
      ({ p.update.1 with kind := k }, p.update.2) := rfl

/-- Iterated physics commutes with overriding the rendering variant. -/
theorem BaseParticle.iter_setKind (p : BaseParticle) (k : ParticleKind) (n : ℕ) :
    ({ p with kind := k } : BaseParticle).iter n = { p.iter n with kind := k } := by
  induction n with
  | zero => rfl
  | succ m ih =>
      show (({ p with kind := k } : BaseParticle).iter m).update.1 = _
      rw [ih]
      rw [BaseParticle.update_setKind]
      rfl

/-- C10: a heart particle constructed while the cache has never been
preloaded (empty cache): the lookup yields `none` and the cache stays
empty, the particle stores the `none` sprite, every subsequent `draw` (at
any point of its evolution) draws nothing — and is total, so no error is
raised — and its physics evolution is identical, field for field, to that
of the same particle carrying any sprite. -/
theorem C10_heart_particle_empty_cache (x y v_x v_y : ℚ) (color : RGB)
    (size lifeTime : ℤ) :
    HeartParticle.init x y v_x v_y color size lifeTime [] =
      (BaseParticle.init x y v_x v_y color size lifeTime (ParticleKind.heart none), []) ∧
    (∀ n : ℕ, HeartParticle.draw
      ((HeartParticle.init x y v_x v_y color size lifeTime []).1.iter n) = []) ∧
    (∀ (img : Image) (n : ℕ),
      ({ (HeartParticle.init x y v_x v_y color size lifeTime []).1 with
          kind := ParticleKind.heart (some img) } : BaseParticle).iter n =
        { (HeartParticle.init x y v_x v_y color size lifeTime []).1.iter n with
            kind := ParticleKind.heart (some img) }) := by
  refine ⟨rfl, ?_, ?_⟩
  · intro n
    have hk : ((HeartParticle.init x y v_x v_y color size lifeTime []).1.iter n).kind =
        ParticleKind.heart none :=
      (BaseParticle.iter_fields _ n).2.2.2.1
    unfold HeartParticle.draw
    rw [hk]
  · intro img n
    exact BaseParticle.iter_setKind _ _ n

/-- An explosion spawns exactly `particle_count` particles. -/
theorem Firework.spawnParticles_length (fw : Firework) (o : BurstSpec) :
    (fw.spawnParticles o).1.length = o.count := by
  have hgen : ∀ (l : List ℕ) (acc : List BaseParticle × Cache),
      ((l.foldl (fun acc i =>
          let r := fw.mkExplosionParticle (o.draws i) acc.2
          (acc.1 ++ [r.1], r.2)) acc).1).length = acc.1.length + l.length := by
    intro l
    induction l with
    | nil => intro acc; simp
    | cons a as ih =>
        intro acc
        rw [List.foldl_cons, ih]
        simp
        omega
  unfold Firework.spawnParticles
  rw [hgen]
  simp

/-- The call `explode` always sets the flag. -/
theorem Firework.explode_exploded (fw : Firework) (o : BurstSpec) :
    (fw.explode o).exploded = true := rfl

/-- The call `explode` appends the spawned burst to the owned particles. -/
theorem Firework.explode_particles (fw : Firework) (o : BurstSpec) :
    (fw.explode o).particles = fw.particles ++ (fw.spawnParticles o).1 := rfl

/-- Behaviour of `update` on an exploded firework: only the particle list changes, and
the returned flag is exactly "some particle survived". -/
theorem Firework.update_of_exploded (fw : Firework) (o : BurstSpec)
    (h : fw.exploded = true) :
    (fw.update o).1 = { fw with particles := Firework.updateParticles fw.particles } ∧
    (fw.update o).2 = decide ((Firework.updateParticles fw.particles).length > 0) := by
  constructor
  · show (if fw.exploded = false then _ else _ : Firework) = _
    rw [h]
    simp
  · show (decide _ || !(if fw.exploded = false then _ else _ : Firework).exploded) = _
    rw [h]
    simp

/-- Behaviour of `update` on an unexploded firework that does not arrive: it just
moves. -/
theorem Firework.update_of_unexploded_far (fw : Firework) (o : BurstSpec)
    (h : fw.exploded = false)
    (hfar : ¬(|fw.x + fw.v_x - fw.target_x| < 10 ∧ |fw.y + fw.v_y - fw.target_y| < 10)) :
    (fw.update o).1 = { fw with x := fw.x + fw.v_x, y := fw.y + fw.v_y } := by
  show (if fw.exploded = false then _ else _ : Firework) = _
  rw [h]
  simp [hfar]

/-- Behaviour of `update` on an unexploded firework that arrives: it moves and
explodes. -/
theorem Firework.update_of_unexploded_near (fw : Firework) (o : BurstSpec)
    (h : fw.exploded = false)
    (hnear : |fw.x + fw.v_x - fw.target_x| < 10 ∧ |fw.y + fw.v_y - fw.target_y| < 10) :
    (fw.update o).1 =
      ({ fw with x := fw.x + fw.v_x, y := fw.y + fw.v_y } : Firework).explode o := by
  show (if fw.exploded = false then _ else _ : Firework) = _
  rw [h]
  simp [hnear]

/-- The `exploded` flag never reverts over one step. -/
theorem Firework.update_exploded_mono (fw : Firework) (o : BurstSpec)
    (h : fw.exploded = true) : (fw.update o).1.exploded = true := by
  rw [(Firework.update_of_exploded fw o h).1]
  exact h

/-- The `exploded` flag never reverts over a run. -/
theorem Firework.iter_exploded_mono (fw : Firework) (os : ℕ → BurstSpec)
    {n m : ℕ} (hnm : n ≤ m) (h : (fw.iter os n).exploded = true) :
    (fw.iter os m).exploded = true := by
  induction m, hnm using Nat.le_induction with
  | base => exact h
  | succ k hk ih => exact Firework.update_exploded_mono _ _ ih

/-- While a firework built by the constructor has not exploded, its
position follows the closed form `start + n · v`, its velocity and target
are the construction-time values, and it owns no particles. -/
theorem Firework.iter_launch_fields (x y tx ty : ℚ) (c : RGB) (t : PType)
    (pc : Cache) (os : ℕ → BurstSpec) (n : ℕ)
    (h : ((Firework.init x y tx ty c t pc).iter os n).exploded = false) :
    ((Firework.init x y tx ty c t pc).iter os n).x = x + n * ((tx - x) * (2/100)) ∧
    ((Firework.init x y tx ty c t pc).iter os n).y = y + n * ((ty - y) * (2/100)) ∧
    ((Firework.init x y tx ty c t pc).iter os n).v_x = (tx - x) * (2/100) ∧
    ((Firework.init x y tx ty c t pc).iter os n).v_y = (ty - y) * (2/100) ∧
    ((Firework.init x y tx ty c t pc).iter os n).target_x = tx ∧
    ((Firework.init x y tx ty c t pc).iter os n).target_y = ty ∧
    ((Firework.init x y tx ty c t pc).iter os n).particles = [] := by
  induction n with
  | zero =>
      refine ⟨?_, ?_, rfl, rfl, rfl, rfl, rfl⟩ <;> simp [Firework.iter, Firework.init]
  | succ m ih =>
      rcases Bool.eq_false_or_eq_true
          (((Firework.init x y tx ty c t pc).iter os m).exploded) with hb | hb
      · exfalso
        have := Firework.iter_exploded_mono (Firework.init x y tx ty c t pc) os
          (Nat.le_succ m) hb
        rw [h] at this
        cases this
      · obtain ⟨hx, hy, hvx, hvy, htx, hty, hp⟩ := ih hb
        by_cases harr :
            |((Firework.init x y tx ty c t pc).iter os m).x +
                ((Firework.init x y tx ty c t pc).iter os m).v_x -
                ((Firework.init x y tx ty c t pc).iter os m).target_x| < 10 ∧
            |((Firework.init x y tx ty c t pc).iter os m).y +
                ((Firework.init x y tx ty c t pc).iter os m).v_y -
                ((Firework.init x y tx ty c t pc).iter os m).target_y| < 10
        · exfalso
          have hstep : ((Firework.init x y tx ty c t pc).iter os (m + 1)) =
              (((Firework.init x y tx ty c t pc).iter os m).update (os m)).1 := rfl
          rw [hstep, Firework.update_of_unexploded_near _ _ hb harr,
            Firework.explode_exploded] at h
          cases h
        · have hstep : ((Firework.init x y tx ty c t pc).iter os (m + 1)) =
              (((Firework.init x y tx ty c t pc).iter os m).update (os m)).1 := rfl
          rw [hstep, Firework.update_of_unexploded_far _ _ hb harr]
          refine ⟨?_, ?_, hvx, hvy, htx, hty, hp⟩
          · show ((Firework.init x y tx ty c t pc).iter os m).x +
                ((Firework.init x y tx ty c t pc).iter os m).v_x = _
            rw [hx, hvx]
            push_cast
            ring
          · show ((Firework.init x y tx ty c t pc).iter os m).y +
                ((Firework.init x y tx ty c t pc).iter os m).v_y = _
            rw [hy, hvy]
            push_cast
            ring

/-- If the per-step arrival check fails for every step up to `n`, the
firework is still unexploded after `n` updates. -/
theorem Firework.iter_unexploded_of_far (x y tx ty : ℚ) (c : RGB) (t : PType)
    (pc : Cache) (os : ℕ → BurstSpec) (n : ℕ)
    (h : ∀ k : ℕ, 1 ≤ k → k ≤ n →
      ¬(|x + k * ((tx - x) * (2/100)) - tx| < 10 ∧
        |y + k * ((ty - y) * (2/100)) - ty| < 10)) :
    ((Firework.init x y tx ty c t pc).iter os n).exploded = false := by
  induction n with
  | zero => rfl
  | succ m ih =>
      have hm : ((Firework.init x y tx ty c t pc).iter os m).exploded = false :=
        ih (fun k hk1 hkm => h k hk1 (Nat.le_succ_of_le hkm))
      obtain ⟨hx, hy, hvx, hvy, htx, hty, hp⟩ :=
        Firework.iter_launch_fields x y tx ty c t pc os m hm
      have harr : ¬(|((Firework.init x y tx ty c t pc).iter os m).x +
              ((Firework.init x y tx ty c t pc).iter os m).v_x -
              ((Firework.init x y tx ty c t pc).iter os m).target_x| < 10 ∧
            |((Firework.init x y tx ty c t pc).iter os m).y +
              ((Firework.init x y tx ty c t pc).iter os m).v_y -
              ((Firework.init x y tx ty c t pc).iter os m).target_y| < 10) := by
        have ex : ((Firework.init x y tx ty c t pc).iter os m).x +
            ((Firework.init x y tx ty c t pc).iter os m).v_x -
            ((Firework.init x y tx ty c t pc).iter os m).target_x =
            x + ((m + 1 : ℕ) : ℚ) * ((tx - x) * (2/100)) - tx := by
          rw [hx, hvx, htx]; push_cast; ring
        have ey : ((Firework.init x y tx ty c t pc).iter os m).y +
            ((Firework.init x y tx ty c t pc).iter os m).v_y -
            ((Firework.init x y tx ty c t pc).iter os m).target_y =
            y + ((m + 1 : ℕ) : ℚ) * ((ty - y) * (2/100)) - ty := by
          rw [hy, hvy, hty]; push_cast; ring
        rw [ex, ey]
        exact h (m + 1) (Nat.le_add_left 1 m) (le_refl _)
      have hstep : ((Firework.init x y tx ty c t pc).iter os (m + 1)) =
          (((Firework.init x y tx ty c t pc).iter os m).update (os m)).1 := rfl
      rw [hstep, Firework.update_of_unexploded_far _ _ hm harr]
      exact hm

/-- Once exploded, position and velocity stay frozen for the rest of the
run. -/
theorem Firework.iter_frozen_after (fw : Firework) (os : ℕ → BurstSpec)
    {n m : ℕ} (hnm : n ≤ m) (h : (fw.iter os n).exploded = true) :
    (fw.iter os m).x = (fw.iter os n).x ∧ (fw.iter os m).y = (fw.iter os n).y ∧
    (fw.iter os m).v_x = (fw.iter os n).v_x ∧
    (fw.iter os m).v_y = (fw.iter os n).v_y := by
  induction m, hnm using Nat.le_induction with
  | base => exact ⟨rfl, rfl, rfl, rfl⟩
  | succ k hk ih =>
      have hke : (fw.iter os k).exploded = true := Firework.iter_exploded_mono fw os hk h
      have hstep : (fw.iter os (k + 1)) = ((fw.iter os k).update (os k)).1 := rfl
      rw [hstep, (Firework.update_of_exploded _ (os k) hke).1]
      exact ih

/-- C8: along any run of a constructed firework: while `exploded` is
false the owned particle collection is empty; and from any point where
`exploded` is true onward, position and velocity are never modified
again. -/
theorem C8_unexploded_empty_exploded_frozen (x y tx ty : ℚ) (c : RGB)
    (t : PType) (pc : Cache) (os : ℕ → BurstSpec) (n m : ℕ) (hnm : n ≤ m) :
    (((Firework.init x y tx ty c t pc).iter os n).exploded = false →
      ((Firework.init x y tx ty c t pc).iter os n).particles = []) ∧
    (((Firework.init x y tx ty c t pc).iter os n).exploded = true →
      ((Firework.init x y tx ty c t pc).iter os m).x =
          ((Firework.init x y tx ty c t pc).iter os n).x ∧
        ((Firework.init x y tx ty c t pc).iter os m).y =
          ((Firework.init x y tx ty c t pc).iter os n).y ∧
        ((Firework.init x y tx ty c t pc).iter os m).v_x =
          ((Firework.init x y tx ty c t pc).iter os n).v_x ∧
        ((Firework.init x y tx ty c t pc).iter os m).v_y =
          ((Firework.init x y tx ty c t pc).iter os n).v_y) := by
  constructor
  · intro h
    exact (Firework.iter_launch_fields x y tx ty c t pc os n h).2.2.2.2.2.2
  · intro h
    exact Firework.iter_frozen_after _ os hnm h

/-- Witness for C8 on a concrete zero-distance firework over steps 0 ≤ 1. -/
theorem C8_unexploded_empty_exploded_frozen_witness :
    (((Firework.init 0 0 0 0 (255, 0, 0) PType.pixel []).iter (fun _ => burst0) 0).exploded = false →
      ((Firework.init 0 0 0 0 (255, 0, 0) PType.pixel []).iter (fun _ => burst0) 0).particles = []) ∧
    (((Firework.init 0 0 0 0 (255, 0, 0) PType.pixel []).iter (fun _ => burst0) 0).exploded = true →
      ((Firework.init 0 0 0 0 (255, 0, 0) PType.pixel []).iter (fun _ => burst0) 1).x =
          ((Firework.init 0 0 0 0 (255, 0, 0) PType.pixel []).iter (fun _ => burst0) 0).x ∧
        ((Firework.init 0 0 0 0 (255, 0, 0) PType.pixel []).iter (fun _ => burst0) 1).y =
          ((Firework.init 0 0 0 0 (255, 0, 0) PType.pixel []).iter (fun _ => burst0) 0).y ∧
        ((Firework.init 0 0 0 0 (255, 0, 0) PType.pixel []).iter (fun _ => burst0) 1).v_x =
          ((Firework.init 0 0 0 0 (255, 0, 0) PType.pixel []).iter (fun _ => burst0) 0).v_x ∧
        ((Firework.init 0 0 0 0 (255, 0, 0) PType.pixel []).iter (fun _ => burst0) 1).v_y =
          ((Firework.init 0 0 0 0 (255, 0, 0) PType.pixel []).iter (fun _ => burst0) 0).v_y) :=
  C8_unexploded_empty_exploded_frozen 0 0 0 0 (255, 0, 0) PType.pixel []
    (fun _ => burst0) 0 1 (by decide)

/-- C1: the keep-alive flag returned by `Firework.update` is true iff
(after the step) particles remain or the explosion has not yet happened;
it is true whenever the firework had not yet exploded before the step —
in particular on the exploding tick itself, since the burst just created
at least five particles — and once exploded it is false exactly when the
(post-step) particle collection is empty. -/
theorem C1_advance_keepalive (fw : Firework) (o : BurstSpec)
    (hvalid : o.valid fw.particle_type) :
    ((fw.update o).2 = true ↔
      ((fw.update o).1.particles ≠ [] ∨ (fw.update o).1.exploded = false)) ∧
    (fw.exploded = false → (fw.update o).2 = true) ∧
    (fw.exploded = true → ((fw.update o).2 = false ↔ (fw.update o).1.particles = [])) := by
  have hsnd : (fw.update o).2 =
      (decide ((fw.update o).1.particles.length > 0) || !(fw.update o).1.exploded) := rfl
  refine ⟨?_, ?_, ?_⟩
  · rw [hsnd]
    simp [List.length_pos, Bool.not_eq_true']
  · intro h
    by_cases harr : |fw.x + fw.v_x - fw.target_x| < 10 ∧ |fw.y + fw.v_y - fw.target_y| < 10
    · have h1 := Firework.update_of_unexploded_near fw o h harr
      have hlen : (({ fw with x := fw.x + fw.v_x, y := fw.y + fw.v_y } : Firework).explode
          o).particles.length = fw.particles.length + o.count := by
        rw [Firework.explode_particles, List.length_append, Firework.spawnParticles_length]
      have hpos : 0 < (({ fw with x := fw.x + fw.v_x, y := fw.y + fw.v_y } : Firework).explode
          o).particles.length := by
        rw [hlen]
        have h5 : 5 ≤ o.count := hvalid.1
        omega
      rw [hsnd, h1]
      simp [hpos]
    · have h1 := Firework.update_of_unexploded_far fw o h harr
      rw [hsnd, h1]
      have he : ({ fw with x := fw.x + fw.v_x, y := fw.y + fw.v_y } : Firework).exploded =
          fw.exploded := rfl
      rw [he, h]
      simp
  · intro h
    obtain ⟨h1, h2⟩ := Firework.update_of_exploded fw o h
    rw [h1, h2]
    have hp : ({ fw with particles := Firework.updateParticles fw.particles } :
        Firework).particles = Firework.updateParticles fw.particles := rfl
    rw [hp]
    simp [List.length_pos]

/-- Witness for C1 at a concrete unexploded firework and a concrete valid
burst. -/
theorem C1_advance_keepalive_witness :
    burst0.valid fwLaunch.particle_type ∧
    (fwLaunch.exploded = false → (fwLaunch.update burst0).2 = true) :=
  ⟨by decide, (C1_advance_keepalive fwLaunch burst0 (by decide)).2.1⟩

/-- C6 (amended): the pixel firework launched at (400,600) targeting
(400,300) is still unexploded after 48 `update` calls and explodes on the
49th; more generally every constructed firework explodes within 50 calls:
the velocity is fixed at construction to 2% of the initial offset, so the
per-axis distance decreases linearly and reaches the target exactly on
tick 50, while the 10-unit tolerance fires slightly earlier. -/
theorem C6_bounded_explosion (os : ℕ → BurstSpec) :
    ((Firework.init 400 600 400 300 (255, 100, 100) PType.pixel []).iter os 48).exploded =
      false ∧
    ((Firework.init 400 600 400 300 (255, 100, 100) PType.pixel []).iter os 49).exploded =
      true ∧
    (∀ (x y tx ty : ℚ) (c : RGB) (t : PType) (pc : Cache),
      ((Firework.init x y tx ty c t pc).iter os 50).exploded = true) := by
  have h48far : ∀ k : ℕ, 1 ≤ k → k ≤ 48 →
      ¬(|(400 : ℚ) + k * (((400 : ℚ) - 400) * (2/100)) - 400| < 10 ∧
        |(600 : ℚ) + k * (((300 : ℚ) - 600) * (2/100)) - 300| < 10) := by
    intro k hk1 hk48 hand
    obtain ⟨-, hy⟩ := hand
    have hyv : (600 : ℚ) + k * (((300 : ℚ) - 600) * (2/100)) - 300 = 300 - 6 * k := by
      ring
    rw [hyv] at hy
    have habs := abs_lt.mp hy
    have hk48q : (k : ℚ) ≤ 48 := by exact_mod_cast hk48
    linarith [habs.2]
  have h48 : ((Firework.init 400 600 400 300 (255, 100, 100) PType.pixel []).iter
      os 48).exploded = false :=
    Firework.iter_unexploded_of_far 400 600 400 300 (255, 100, 100) PType.pixel []
      os 48 h48far
  obtain ⟨hx, hy, hvx, hvy, htx, hty, -⟩ :=
    Firework.iter_launch_fields 400 600 400 300 (255, 100, 100) PType.pixel [] os 48 h48
  have harr : |((Firework.init 400 600 400 300 (255, 100, 100) PType.pixel []).iter os 48).x +
        ((Firework.init 400 600 400 300 (255, 100, 100) PType.pixel []).iter os 48).v_x -
        ((Firework.init 400 600 400 300 (255, 100, 100) PType.pixel []).iter os 48).target_x| < 10 ∧
      |((Firework.init 400 600 400 300 (255, 100, 100) PType.pixel []).iter os 48).y +
        ((Firework.init 400 600 400 300 (255, 100, 100) PType.pixel []).iter os 48).v_y -
        ((Firework.init 400 600 400 300 (255, 100, 100) PType.pixel []).iter os 48).target_y| < 10 := by
    rw [hx, hvx, htx, hy, hvy, hty]
    constructor
    · push_cast
      norm_num
    · push_cast
      norm_num
  have h49 : ((Firework.init 400 600 400 300 (255, 100, 100) PType.pixel []).iter
      os 49).exploded = true := by
    have hstep : (Firework.init 400 600 400 300 (255, 100, 100) PType.pixel []).iter os 49 =
        (((Firework.init 400 600 400 300 (255, 100, 100) PType.pixel []).iter os 48).update
          (os 48)).1 := rfl
    rw [hstep, Firework.update_of_unexploded_near _ _ h48 harr, Firework.explode_exploded]
  refine ⟨h48, h49, ?_⟩
  intro x y tx ty c t pc
  rcases Bool.eq_false_or_eq_true
      (((Firework.init x y tx ty c t pc).iter os 49).exploded) with ht | hf
  · exact Firework.iter_exploded_mono _ os (by omega) ht
  · obtain ⟨hx', hy', hvx', hvy', htx', hty', -⟩ :=
      Firework.iter_launch_fields x y tx ty c t pc os 49 hf
    have harr' : |((Firework.init x y tx ty c t pc).iter os 49).x +
          ((Firework.init x y tx ty c t pc).iter os 49).v_x -
          ((Firework.init x y tx ty c t pc).iter os 49).target_x| < 10 ∧
        |((Firework.init x y tx ty c t pc).iter os 49).y +
          ((Firework.init x y tx ty c t pc).iter os 49).v_y -
          ((Firework.init x y tx ty c t pc).iter os 49).target_y| < 10 := by
      rw [hx', hvx', htx', hy', hvy', hty']
      constructor
      · have hzero : x + ((49 : ℕ) : ℚ) * ((tx - x) * (2/100)) + (tx - x) * (2/100) - tx = 0 := by
          push_cast
          ring
        rw [hzero]
        norm_num
      · have hzero : y + ((49 : ℕ) : ℚ) * ((ty - y) * (2/100)) + (ty - y) * (2/100) - ty = 0 := by
          push_cast
          ring
        rw [hzero]
        norm_num
    have hstep : (Firework.init x y tx ty c t pc).iter os 50 =
        (((Firework.init x y tx ty c t pc).iter os 49).update (os 49)).1 := rfl
    rw [hstep, Firework.update_of_unexploded_near _ _ hf harr', Firework.explode_exploded]

/-- Counterexample to C6 as stated: the remaining distance to the target
does NOT shrink geometrically — the ratio between successive distances is
not constant (300, 294, 288: a linear, not geometric, decay), witnessed by
294 · 294 ≠ 300 · 288. -/
theorem C6_not_geometric_counterexample :
    ¬(distToTarget 1 * distToTarget 1 = distToTarget 0 * distToTarget 2) := by
  have hfar2 : ∀ k : ℕ, 1 ≤ k → k ≤ 2 →
      ¬(|(400 : ℚ) + k * (((400 : ℚ) - 400) * (2/100)) - 400| < 10 ∧
        |(600 : ℚ) + k * (((300 : ℚ) - 600) * (2/100)) - 300| < 10) := by
    intro k hk1 hk2 hand
    obtain ⟨-, hy⟩ := hand
    have hyv : (600 : ℚ) + k * (((300 : ℚ) - 600) * (2/100)) - 300 = 300 - 6 * k := by
      ring
    rw [hyv] at hy
    have habs := abs_lt.mp hy
    have hk2q : (k : ℚ) ≤ 2 := by exact_mod_cast hk2
    linarith [habs.2]
  have h2 : ((Firework.init 400 600 400 300 (255, 100, 100) PType.pixel []).iter
      (fun _ => burst0) 2).exploded = false :=
    Firework.iter_unexploded_of_far 400 600 400 300 (255, 100, 100) PType.pixel []
      (fun _ => burst0) 2 hfar2
  have h1 : ((Firework.init 400 600 400 300 (255, 100, 100) PType.pixel []).iter
      (fun _ => burst0) 1).exploded = false :=
    Firework.iter_unexploded_of_far 400 600 400 300 (255, 100, 100) PType.pixel []
      (fun _ => burst0) 1 (fun k hk1 hk2 => hfar2 k hk1 (le_trans hk2 (by omega)))
  have hy1 : ((Firework.init 400 600 400 300 (255, 100, 100) PType.pixel []).iter
      (fun _ => burst0) 1).y = 600 + ((1 : ℕ) : ℚ) * (((300 : ℚ) - 600) * (2/100)) :=
    (Firework.iter_launch_fields 400 600 400 300 (255, 100, 100) PType.pixel []
      (fun _ => burst0) 1 h1).2.1
  have hy2 : ((Firework.init 400 600 400 300 (255, 100, 100) PType.pixel []).iter
      (fun _ => burst0) 2).y = 600 + ((2 : ℕ) : ℚ) * (((300 : ℚ) - 600) * (2/100)) :=
    (Firework.iter_launch_fields 400 600 400 300 (255, 100, 100) PType.pixel []
      (fun _ => burst0) 2 h2).2.1
  have hd0 : distToTarget 0 = 300 := by
    unfold distToTarget
    norm_num [Firework.iter, Firework.init]
  have hd1 : distToTarget 1 = 294 := by
    unfold distToTarget
    rw [hy1]
    push_cast
    norm_num
  have hd2 : distToTarget 2 = 288 := by
    unfold distToTarget
    rw [hy2]
    push_cast
    norm_num
  rw [hd0, hd1, hd2]
  norm_num

/-- Witness for C3 on the preloaded cache at the growing size 100. -/
theorem C3_get_idempotent_witness :
    ParticleCache.get_cached_heart
        (ParticleCache.get_cached_heart
          [(20, pinkPlaceholder 20), (25, pinkPlaceholder 25), (30, pinkPlaceholder 30),
           (35, pinkPlaceholder 35), (40, pinkPlaceholder 40), (45, pinkPlaceholder 45)] 100).2
        100 =
      ParticleCache.get_cached_heart
        [(20, pinkPlaceholder 20), (25, pinkPlaceholder 25), (30, pinkPlaceholder 30),
         (35, pinkPlaceholder 35), (40, pinkPlaceholder 40), (45, pinkPlaceholder 45)] 100 :=
  C3_get_idempotent
    [(20, pinkPlaceholder 20), (25, pinkPlaceholder 25), (30, pinkPlaceholder 30),
     (35, pinkPlaceholder 35), (40, pinkPlaceholder 40), (45, pinkPlaceholder 45)] 100

/-- Witness for C10 at a concrete heart particle built from the empty
cache. -/
theorem C10_heart_particle_empty_cache_witness :
    HeartParticle.init 0 0 1 1 (255, 0, 0) 30 40 [] =
      (BaseParticle.init 0 0 1 1 (255, 0, 0) 30 40 (ParticleKind.heart none), []) ∧
    (∀ n : ℕ, HeartParticle.draw
      ((HeartParticle.init 0 0 1 1 (255, 0, 0) 30 40 []).1.iter n) = []) ∧
    (∀ (img : Image) (n : ℕ),
      ({ (HeartParticle.init 0 0 1 1 (255, 0, 0) 30 40 []).1 with
          kind := ParticleKind.heart (some img) } : BaseParticle).iter n =
        { (HeartParticle.init 0 0 1 1 (255, 0, 0) 30 40 []).1.iter n with
            kind := ParticleKind.heart (some img) }) :=
  C10_heart_particle_empty_cache 0 0 1 1 (255, 0, 0) 30 40

/-- Witness for C6 (amended) at the constant concrete oracle. -/
theorem C6_bounded_explosion_witness :
    ((Firework.init 400 600 400 300 (255, 100, 100) PType.pixel []).iter
        (fun _ => burst0) 48).exploded = false ∧
    ((Firework.init 400 600 400 300 (255, 100, 100) PType.pixel []).iter
        (fun _ => burst0) 49).exploded = true ∧
    (∀ (x y tx ty : ℚ) (c : RGB) (t : PType) (pc : Cache),
      ((Firework.init x y tx ty c t pc).iter (fun _ => burst0) 50).exploded = true) :=
  C6_bounded_explosion (fun _ => burst0)
